import Mathlib

/-!
Shallow embedding of the device-pool server (`src/models/Device.js`,
`src/routes/api/devices.js`).

The registry is the Mongo `device` collection, modelled as a `List Device`.
Each route handler becomes a pure function from the registry (plus request
parameters) to either an error or the updated registry.  Mongo ObjectIds are
modelled as `Nat`; `Device.findById` is `List.find?` on the id field;
`document.save()` rewrites the document with that id in the collection.
-/

namespace NodeServer

/-- Result of `new Date()`: the local hour-of-day (`getHours()`) together
with the epoch-milliseconds value (`Date.now()`). -/
structure Time where
  hour : Nat
  ms : Nat
deriving DecidableEq

/-- One entry of `DeviceSchema.feedbacks` (src/models/Device.js lines 38-60). -/
structure Feedback where
  user : Nat
  name : String
  rating : Nat
  text : String
  date : Nat
deriving DecidableEq

/-- A document of the `device` collection (src/models/Device.js lines 4-61). -/
structure Device where
  id : Nat
  model : String
  os : String
  manufacturer : String
  lastCheckedOutBy : Option Nat
  lastCheckedOutDate : Option Nat
  lastCheckedInDate : Option Nat
  registeredBy : Nat
  registeredDate : Nat
  isCheckedOut : Bool
  feedbacks : List Feedback
deriving DecidableEq

/-- The distinct failure responses the handlers in
src/routes/api/devices.js send.  `ServerError` is the catch-all 500 sent by
a handler's `catch` block when the handler body throws. -/
inductive DevError where
  | ValidationError
  | CapacityExceeded
  | NotFound
  | Forbidden
  | DuplicateReview
  | ReviewNotFound
  | OutsideAdmissionWindow
  | UserAlreadyHolding
  | AlreadyCheckedOut
  | NotCheckedOut
  | NotHolder
  | ServerError
deriving DecidableEq

/-- `Device.findById(id)`: the document with the given id, or `none`. -/
def findDevice (r : List Device) (i : Nat) : Option Device :=
  r.find? (fun d => d.id == i)

/-- The `findOne({lastCheckedOutBy: u, isCheckedOut: true})` predicate of the
checkout handler (src/routes/api/devices.js lines 175-178). -/
def heldBy (u : Nat) (d : Device) : Bool :=
  d.isCheckedOut && d.lastCheckedOutBy == some u

/-- A fresh ObjectId for a new document: Mongo assigns an id distinct from
every id in the collection; we model it as one past the largest id. -/
def freshDeviceId (r : List Device) : Nat :=
  r.foldr (fun d m => max d.id m) 0 + 1

/-- POST `/` (src/routes/api/devices.js lines 13-47).  The express-validator
chain rejects empty `model`/`os`/`manufacturer` first; then the handler
rejects when `Device.count() >= 10`; otherwise it saves a new document.
`load` is the value of `Date.now()` captured once when src/models/Device.js
was loaded: the schema writes `default: Date.now()` (a number, evaluated at
schema-construction time), so every document's `registeredDate` gets that
same constant.  The handler itself never reads the clock, hence no `now`
parameter. -/
def newDevice (load : Nat) (r : List Device) (model os manufacturer : String)
    (userId : Nat) : Device :=
  { id := freshDeviceId r, model := model, os := os, manufacturer := manufacturer,
    lastCheckedOutBy := none, lastCheckedOutDate := none, lastCheckedInDate := none,
    registeredBy := userId, registeredDate := load, isCheckedOut := false,
    feedbacks := [] }

/-- The POST `/` handler body: validation chain, capacity check, save. -/
def registerDevice (load : Nat) (r : List Device) (model os manufacturer : String)
    (userId : Nat) : Except DevError (Device × List Device) :=
  if model = "" ∨ os = "" ∨ manufacturer = "" then .error .ValidationError
  else if 10 ≤ r.length then .error .CapacityExceeded
  else .ok (newDevice load r model os manufacturer userId,
            r ++ [newDevice load r model os manufacturer userId])

/-- DELETE `/:id` (src/routes/api/devices.js lines 65-86): 404 if absent,
401 if the requester is not the registerer, else `device.remove()`. -/
def removeDevice (r : List Device) (deviceId requesterId : Nat) :
    Except DevError (List Device) :=
  match findDevice r deviceId with
  | none => .error .NotFound
  | some d =>
    if d.registeredBy ≠ requesterId then .error .Forbidden
    else .ok (r.eraseP (fun x => x.id == deviceId))

/-- The mutation `device.isCheckedOut = true; device.lastCheckedOutBy = user.id;
device.lastCheckedOutDate = Date.now(); device.save()` applied to the document
with the given id (src/routes/api/devices.js lines 189-193). -/
def checkOutUpd (deviceId userId ms : Nat) (d : Device) : Device :=
  if d.id == deviceId then
    { d with isCheckedOut := true, lastCheckedOutBy := some userId,
             lastCheckedOutDate := some ms }
  else d

/-- POST `/checkout/:id` (src/routes/api/devices.js lines 154-202). -/
def checkOut (r : List Device) (deviceId userId : Nat) (now : Time) :
    Except DevError (List Device) :=
  if now.hour < 15 ∨ 17 < now.hour then .error .OutsideAdmissionWindow
  else
    match findDevice r deviceId with
    | none => .error .NotFound
    | some d =>
      if r.any (heldBy userId) then .error .UserAlreadyHolding
      else if d.isCheckedOut then .error .AlreadyCheckedOut
      else .ok (r.map (checkOutUpd deviceId userId now.ms))

/-- The mutation `device.isCheckedOut = false; device.lastCheckedInDate =
Date.now(); device.save()` applied to the document with the given id
(src/routes/api/devices.js lines 230-233). -/
def checkInUpd (deviceId ms : Nat) (d : Device) : Device :=
  if d.id == deviceId then
    { d with isCheckedOut := false, lastCheckedInDate := some ms }
  else d

/-- POST `/checkin/:id` (src/routes/api/devices.js lines 207-241). -/
def checkIn (r : List Device) (deviceId userId : Nat) (now : Time) :
    Except DevError (List Device) :=
  match findDevice r deviceId with
  | none => .error .NotFound
  | some d =>
    if !d.isCheckedOut then .error .NotCheckedOut
    else if d.lastCheckedOutBy ≠ some userId then .error .NotHolder
    else .ok (r.map (checkInUpd deviceId now.ms))

/-- The entry `feedbacks.unshift({user, name, rating, text})` builds
(src/routes/api/devices.js lines 105-110); the schema fills `date` from
`Date.now` at creation. -/
def mkFeedback (reviewerId : Nat) (name : String) (rating : Nat) (text : String)
    (now : Nat) : Feedback :=
  { user := reviewerId, name := name, rating := rating, text := text, date := now }

/-- `device.feedbacks.unshift(entry); device.save()` on the document with the
given id. -/
def addFeedbackUpd (deviceId : Nat) (fb : Feedback) (d : Device) : Device :=
  if d.id == deviceId then { d with feedbacks := fb :: d.feedbacks } else d

/-- PUT `/feedback/:id` (src/routes/api/devices.js lines 91-119).  The handler
does not null-check `findById`: on an absent id, `device.feedbacks.some`
throws a TypeError which the `catch` block turns into the 500 `ServerError`
response — not a 404. -/
def addFeedback (r : List Device) (deviceId reviewerId : Nat) (name : String)
    (rating : Nat) (text : String) (now : Nat) :
    Except DevError (List Feedback × List Device) :=
  match findDevice r deviceId with
  | none => .error .ServerError
  | some d =>
    if d.feedbacks.any (fun fb => fb.user == reviewerId) then
      .error .DuplicateReview
    else
      .ok (mkFeedback reviewerId name rating text now :: d.feedbacks,
           r.map (addFeedbackUpd deviceId (mkFeedback reviewerId name rating text now)))

/-- `device.feedbacks = device.feedbacks.filter(({user}) => user !== me);
device.save()` on the document with the given id. -/
def removeFeedbackUpd (deviceId reviewerId : Nat) (d : Device) : Device :=
  if d.id == deviceId then
    { d with feedbacks := d.feedbacks.filter (fun fb => fb.user != reviewerId) }
  else d

/-- DELETE `/feedback/:id` (src/routes/api/devices.js lines 124-149).  Like
`addFeedback`, an absent id makes the handler throw on `device.feedbacks`,
surfaced as the 500 `ServerError`, not a 404. -/
def removeFeedback (r : List Device) (deviceId reviewerId : Nat) :
    Except DevError (List Feedback × List Device) :=
  match findDevice r deviceId with
  | none => .error .ServerError
  | some d =>
    if !d.feedbacks.any (fun fb => fb.user == reviewerId) then
      .error .ReviewNotFound
    else
      .ok (d.feedbacks.filter (fun fb => fb.user != reviewerId),
           r.map (removeFeedbackUpd deviceId reviewerId))

/-- One request against the API, with all its parameters. -/
inductive Op where
  | register (model os manufacturer : String) (userId load : Nat)
  | remove (deviceId requesterId : Nat)
  | checkOut (deviceId userId : Nat) (now : Time)
  | checkIn (deviceId userId : Nat) (now : Time)
  | addFeedback (deviceId reviewerId : Nat) (name : String) (rating : Nat)
      (text : String) (now : Nat)
  | removeFeedback (deviceId reviewerId : Nat)

/-- Effect of one request on the collection: a failing request leaves the
collection untouched (every error path returns before any `save`). -/
def applyOp (r : List Device) : Op → List Device
  | .register m o f u load =>
    match registerDevice load r m o f u with
    | .ok (_, r') => r'
    | .error _ => r
  | .remove did uid =>
    match removeDevice r did uid with
    | .ok r' => r'
    | .error _ => r
  | .checkOut did uid now =>
    match checkOut r did uid now with
    | .ok r' => r'
    | .error _ => r
  | .checkIn did uid now =>
    match checkIn r did uid now with
    | .ok r' => r'
    | .error _ => r
  | .addFeedback did rid n rt tx now =>
    match addFeedback r did rid n rt tx now with
    | .ok (_, r') => r'
    | .error _ => r
  | .removeFeedback did rid =>
    match removeFeedback r did rid with
    | .ok (_, r') => r'
    | .error _ => r

/-- Run a sequence of requests from a starting collection. -/
def runOps (r : List Device) (ops : List Op) : List Device :=
  ops.foldl applyOp r

/-- Number of documents in the collection carrying a given id. -/
def countWithId (r : List Device) (i : Nat) : Nat :=
  r.countP (fun d => d.id == i)

/-- Ids identify documents uniquely (Mongo `_id` uniqueness). -/
def UniqueIds (r : List Device) : Prop :=
  ∀ i : Nat, countWithId r i ≤ 1

/-- Number of devices currently held by user `u`. -/
def countHeldBy (r : List Device) (u : Nat) : Nat :=
  r.countP (heldBy u)

/-- Registry-wide exclusivity: every user holds at most one device. -/
def Exclusive (r : List Device) : Prop :=
  ∀ u : Nat, countHeldBy r u ≤ 1

/-- Every device's ledger has at most one entry per reviewer. -/
def OneReview (r : List Device) : Prop :=
  ∀ d ∈ r, ∀ rid : Nat, d.feedbacks.countP (fun fb => fb.user == rid) ≤ 1

/-- Combined reachable-state invariant. -/
def Inv (r : List Device) : Prop :=
  UniqueIds r ∧ Exclusive r ∧ OneReview r

/-- Success test on a handler result. -/
def isOk (x : Except DevError (Device × List Device)) : Bool :=
  match x with
  | .ok _ => true
  | .error _ => false

/-- A concrete registration request used in scenario checks. -/
def regOp : Op := Op.register "m" "o" "f" 1 0

/-- A concrete available device used as a test fixture. -/
def sampleDevice (i : Nat) : Device :=
  { id := i, model := "m", os := "o", manufacturer := "f",
    lastCheckedOutBy := none, lastCheckedOutDate := none, lastCheckedInDate := none,
    registeredBy := 7, registeredDate := 0, isCheckedOut := false, feedbacks := [] }

/-- A concrete ledger entry by reviewer 2. -/
def sampleFeedback : Feedback :=
  { user := 2, name := "n", rating := 5, text := "t", date := 0 }

/-- A device already reviewed by reviewer 2. -/
def reviewedDevice : Device :=
  { sampleDevice 1 with feedbacks := [sampleFeedback] }

lemma id_le_foldrMax (r : List Device) (d : Device) (hd : d ∈ r) :
    d.id ≤ r.foldr (fun d m => max d.id m) 0 := by
  induction r with
  | nil => cases hd
  | cons a t ih =>
    rcases List.mem_cons.mp hd with h | h
    · subst h; exact Nat.le_max_left _ _
    · exact le_trans (ih h) (Nat.le_max_right _ _)

lemma id_lt_freshDeviceId (r : List Device) (d : Device) (hd : d ∈ r) :
    d.id < freshDeviceId r := by
  unfold freshDeviceId
  exact Nat.lt_succ_of_le (id_le_foldrMax r d hd)

lemma countWithId_fresh (r : List Device) : countWithId r (freshDeviceId r) = 0 := by
  unfold countWithId
  rw [List.countP_eq_zero]
  intro d hd
  simp only [beq_iff_eq]
  exact Nat.ne_of_lt (id_lt_freshDeviceId r d hd)

lemma mem_eq_of_findDevice_of_unique (r : List Device) (i : Nat) (d d0 : Device)
    (hu : countWithId r i ≤ 1) (hf : findDevice r i = some d)
    (hm : d0 ∈ r) (hid : d0.id = i) : d0 = d := by
  induction r with
  | nil => cases hm
  | cons a t ih =>
    by_cases ha : a.id = i
    · have hfa : findDevice (a :: t) i = some a := by
        unfold findDevice
        rw [List.find?_cons_of_pos]
        simp [ha]
      rw [hfa] at hf
      have had : a = d := Option.some.inj hf
      have hcount : countWithId (a :: t) i = countWithId t i + 1 := by
        unfold countWithId
        rw [List.countP_cons_of_pos]
        simp [ha]
      have ht0 : countWithId t i = 0 := by omega
      rcases List.mem_cons.mp hm with h | h
      · exact h.trans had
      · exfalso
        have := (List.countP_eq_zero.mp ht0) d0 h
        simp [hid] at this
    · have hfa : findDevice (a :: t) i = findDevice t i := by
        unfold findDevice
        rw [List.find?_cons_of_neg]
        simp [ha]
      rw [hfa] at hf
      have hcount : countWithId (a :: t) i = countWithId t i := by
        unfold countWithId
        rw [List.countP_cons_of_neg]
        simp [ha]
      rcases List.mem_cons.mp hm with h | h
      · exact absurd (h ▸ hid) ha
      · exact ih (by omega) hf h

lemma checkOutUpd_id (deviceId userId ms : Nat) (d : Device) :
    (checkOutUpd deviceId userId ms d).id = d.id := by
  unfold checkOutUpd; split <;> rfl

lemma checkOutUpd_feedbacks (deviceId userId ms : Nat) (d : Device) :
    (checkOutUpd deviceId userId ms d).feedbacks = d.feedbacks := by
  unfold checkOutUpd; split <;> rfl

lemma heldBy_checkOutUpd (deviceId userId ms u : Nat) (d : Device) :
    heldBy u (checkOutUpd deviceId userId ms d) =
      if d.id == deviceId then userId == u else heldBy u d := by
  unfold checkOutUpd heldBy
  split <;> simp_all

lemma checkInUpd_id (deviceId ms : Nat) (d : Device) :
    (checkInUpd deviceId ms d).id = d.id := by
  unfold checkInUpd; split <;> rfl

lemma checkInUpd_feedbacks (deviceId ms : Nat) (d : Device) :
    (checkInUpd deviceId ms d).feedbacks = d.feedbacks := by
  unfold checkInUpd; split <;> rfl

lemma heldBy_checkInUpd (deviceId ms u : Nat) (d : Device) :
    heldBy u (checkInUpd deviceId ms d) =
      if d.id == deviceId then false else heldBy u d := by
  unfold checkInUpd heldBy
  split <;> simp_all

lemma addFeedbackUpd_id (deviceId : Nat) (fb : Feedback) (d : Device) :
    (addFeedbackUpd deviceId fb d).id = d.id := by
  unfold addFeedbackUpd; split <;> rfl

lemma heldBy_addFeedbackUpd (deviceId u : Nat) (fb : Feedback) (d : Device) :
    heldBy u (addFeedbackUpd deviceId fb d) = heldBy u d := by
  unfold addFeedbackUpd heldBy
  split <;> rfl

lemma removeFeedbackUpd_id (deviceId reviewerId : Nat) (d : Device) :
    (removeFeedbackUpd deviceId reviewerId d).id = d.id := by
  unfold removeFeedbackUpd; split <;> rfl

lemma heldBy_removeFeedbackUpd (deviceId reviewerId u : Nat) (d : Device) :
    heldBy u (removeFeedbackUpd deviceId reviewerId d) = heldBy u d := by
  unfold removeFeedbackUpd heldBy
  split <;> rfl

lemma findDevice_map (r : List Device) (i : Nat) (f : Device → Device)
    (hf : ∀ d, (f d).id = d.id) :
    findDevice (r.map f) i = (findDevice r i).map f := by
  unfold findDevice
  rw [List.find?_map]
  have hfun : ((fun d : Device => d.id == i) ∘ f) = fun d : Device => d.id == i := by
    funext d
    simp [Function.comp, hf]
  rw [hfun]

lemma countWithId_map (r : List Device) (i : Nat) (f : Device → Device)
    (hf : ∀ d, (f d).id = d.id) :
    countWithId (r.map f) i = countWithId r i := by
  unfold countWithId
  rw [List.countP_map]
  apply List.countP_congr
  intro d _
  simp [Function.comp, hf]

lemma register_ok_inversion (load : Nat) (r : List Device) (m o f : String) (u : Nat)
    (d : Device) (r' : List Device)
    (hok : registerDevice load r m o f u = .ok (d, r')) :
    r.length ≤ 9 ∧ d = newDevice load r m o f u ∧ r' = r ++ [d] := by
  unfold registerDevice at hok
  split at hok
  · cases hok
  · split at hok
    · cases hok
    · rename_i hcap
      simp only [Except.ok.injEq, Prod.mk.injEq] at hok
      refine ⟨by omega, hok.1.symm, ?_⟩
      rw [← hok.2, hok.1]

lemma inv_register_ok (load : Nat) (r : List Device) (m o f : String) (u : Nat)
    (d : Device) (r' : List Device) (h : Inv r)
    (hok : registerDevice load r m o f u = .ok (d, r')) : Inv r' := by
  obtain ⟨hlen, hd, hr'⟩ := register_ok_inversion load r m o f u d r' hok
  subst hr'
  subst hd
  obtain ⟨hu, hex, hor⟩ := h
  refine ⟨?_, ?_, ?_⟩
  · intro i
    unfold countWithId
    rw [List.countP_append]
    by_cases hi : i = freshDeviceId r
    · have h0 : countWithId r i = 0 := by rw [hi]; exact countWithId_fresh r
      unfold countWithId at h0
      have h1 : (List.countP (fun x : Device => x.id == i) [newDevice load r m o f u]) ≤ 1 :=
        le_trans (List.countP_le_length _) (by simp)
      omega
    · have h1 : (List.countP (fun x : Device => x.id == i) [newDevice load r m o f u]) = 0 := by
        rw [List.countP_eq_zero]
        intro x hx
        rcases List.mem_singleton.mp hx with rfl
        simp only [beq_iff_eq]
        exact fun hh => hi hh.symm
      have h2 := hu i
      unfold countWithId at h2
      omega
  · intro u'
    unfold countHeldBy
    rw [List.countP_append]
    have h1 : (List.countP (heldBy u') [newDevice load r m o f u]) = 0 := by
      rw [List.countP_eq_zero]
      intro x hx
      rcases List.mem_singleton.mp hx with rfl
      simp [heldBy, newDevice]
    have h2 := hex u'
    unfold countHeldBy at h2
    omega
  · intro d' hd' rid
    rcases List.mem_append.mp hd' with hmem | hmem
    · exact hor d' hmem rid
    · rcases List.mem_singleton.mp hmem with rfl
      simp [newDevice]

lemma remove_ok_inversion (r : List Device) (did uid : Nat) (r' : List Device)
    (hok : removeDevice r did uid = .ok r') :
    r' = r.eraseP (fun x => x.id == did) := by
  unfold removeDevice at hok
  split at hok
  · cases hok
  · split at hok
    · cases hok
    · exact (Except.ok.inj hok).symm

lemma inv_remove_ok (r : List Device) (did uid : Nat) (r' : List Device) (h : Inv r)
    (hok : removeDevice r did uid = .ok r') : Inv r' := by
  rw [remove_ok_inversion r did uid r' hok]
  obtain ⟨hu, hex, hor⟩ := h
  have hsub : List.Sublist (r.eraseP (fun x => x.id == did)) r := List.eraseP_sublist r
  refine ⟨?_, ?_, ?_⟩
  · intro i
    exact le_trans (hsub.countP_le _) (hu i)
  · intro u'
    exact le_trans (hsub.countP_le _) (hex u')
  · intro d' hd' rid
    exact hor d' (hsub.subset hd') rid

lemma checkOut_ok_inversion (r : List Device) (did uid : Nat) (now : Time)
    (r' : List Device) (hok : checkOut r did uid now = .ok r') :
    ∃ d, (15 ≤ now.hour ∧ now.hour ≤ 17) ∧ findDevice r did = some d ∧
      r.any (heldBy uid) = false ∧ d.isCheckedOut = false ∧
      r' = r.map (checkOutUpd did uid now.ms) := by
  unfold checkOut at hok
  split at hok
  · cases hok
  · rename_i hw
    split at hok
    · cases hok
    · rename_i d hf
      split at hok
      · cases hok
      · rename_i hAny
        split at hok
        · cases hok
        · rename_i hCo
          simp only [Bool.not_eq_true] at hAny hCo
          exact ⟨d, by omega, hf, hAny, hCo, (Except.ok.inj hok).symm⟩

lemma inv_checkOut_ok (r : List Device) (did uid : Nat) (now : Time) (r' : List Device)
    (h : Inv r) (hok : checkOut r did uid now = .ok r') : Inv r' := by
  obtain ⟨d, hw, hf, hAny, hCo, hr'⟩ := checkOut_ok_inversion r did uid now r' hok
  subst hr'
  obtain ⟨hu, hex, hor⟩ := h
  refine ⟨?_, ?_, ?_⟩
  · intro i
    rw [countWithId_map r i _ (checkOutUpd_id did uid now.ms)]
    exact hu i
  · intro u'
    unfold countHeldBy
    rw [List.countP_map]
    by_cases huu : u' = uid
    · subst huu
      have hcongr : List.countP (heldBy u' ∘ checkOutUpd did u' now.ms) r
          = List.countP (fun x : Device => x.id == did) r := by
        apply List.countP_congr
        intro x hx
        have hx0 : heldBy u' x = false := by
          simpa using List.any_eq_false.mp hAny x hx
        simp only [Function.comp, heldBy_checkOutUpd]
        by_cases hxid : (x.id == did) = true
        · simp [hxid]
        · simp only [Bool.not_eq_true] at hxid
          simp [hxid, hx0]
      rw [hcongr]
      exact hu did
    · have hmono : List.countP (heldBy u' ∘ checkOutUpd did uid now.ms) r
          ≤ List.countP (heldBy u') r := by
        apply List.countP_mono_left
        intro x hx hpx
        simp only [Function.comp, heldBy_checkOutUpd] at hpx
        by_cases hxid : (x.id == did) = true
        · rw [if_pos hxid] at hpx
          exact absurd (eq_of_beq hpx) fun hh => huu hh.symm
        · simp only [Bool.not_eq_true] at hxid
          rw [hxid] at hpx
          simp at hpx
          exact hpx
      exact le_trans hmono (hex u')
  · intro d' hd' rid
    obtain ⟨x, hx, rfl⟩ := List.mem_map.mp hd'
    rw [checkOutUpd_feedbacks]
    exact hor x hx rid

lemma checkIn_ok_inversion (r : List Device) (did uid : Nat) (now : Time)
    (r' : List Device) (hok : checkIn r did uid now = .ok r') :
    ∃ d, findDevice r did = some d ∧ d.isCheckedOut = true ∧
      d.lastCheckedOutBy = some uid ∧ r' = r.map (checkInUpd did now.ms) := by
  unfold checkIn at hok
  split at hok
  · cases hok
  · rename_i d hf
    split at hok
    · cases hok
    · rename_i hCo
      split at hok
      · cases hok
      · rename_i hHold
        simp at hCo
        push_neg at hHold
        exact ⟨d, hf, hCo, hHold, (Except.ok.inj hok).symm⟩

lemma inv_checkIn_ok (r : List Device) (did uid : Nat) (now : Time) (r' : List Device)
    (h : Inv r) (hok : checkIn r did uid now = .ok r') : Inv r' := by
  obtain ⟨d, hf, hCo, hHold, hr'⟩ := checkIn_ok_inversion r did uid now r' hok
  subst hr'
  obtain ⟨hu, hex, hor⟩ := h
  refine ⟨?_, ?_, ?_⟩
  · intro i
    rw [countWithId_map r i _ (checkInUpd_id did now.ms)]
    exact hu i
  · intro u'
    unfold countHeldBy
    rw [List.countP_map]
    have hmono : List.countP (heldBy u' ∘ checkInUpd did now.ms) r
        ≤ List.countP (heldBy u') r := by
      apply List.countP_mono_left
      intro x hx hpx
      simp only [Function.comp, heldBy_checkInUpd] at hpx
      by_cases hxid : (x.id == did) = true
      · rw [if_pos hxid] at hpx
        cases hpx
      · simp only [Bool.not_eq_true] at hxid
        rw [hxid] at hpx
        simp at hpx
        exact hpx
    exact le_trans hmono (hex u')
  · intro d' hd' rid
    obtain ⟨x, hx, rfl⟩ := List.mem_map.mp hd'
    rw [checkInUpd_feedbacks]
    exact hor x hx rid

lemma addFeedback_ok_inversion (r : List Device) (did rid : Nat) (n : String)
    (rt : Nat) (tx : String) (now : Nat) (fbs : List Feedback) (r' : List Device)
    (hok : addFeedback r did rid n rt tx now = .ok (fbs, r')) :
    ∃ d, findDevice r did = some d ∧
      d.feedbacks.any (fun fb => fb.user == rid) = false ∧
      fbs = mkFeedback rid n rt tx now :: d.feedbacks ∧
      r' = r.map (addFeedbackUpd did (mkFeedback rid n rt tx now)) := by
  unfold addFeedback at hok
  split at hok
  · cases hok
  · rename_i d hf
    split at hok
    · cases hok
    · rename_i hDup
      simp only [Bool.not_eq_true] at hDup
      simp only [Except.ok.injEq, Prod.mk.injEq] at hok
      exact ⟨d, hf, hDup, hok.1.symm, hok.2.symm⟩

lemma inv_addFeedback_ok (r : List Device) (did rid : Nat) (n : String) (rt : Nat)
    (tx : String) (now : Nat) (fbs : List Feedback) (r' : List Device) (h : Inv r)
    (hok : addFeedback r did rid n rt tx now = .ok (fbs, r')) : Inv r' := by
  obtain ⟨d, hf, hDup, hfbs, hr'⟩ := addFeedback_ok_inversion r did rid n rt tx now fbs r' hok
  subst hr'
  obtain ⟨hu, hex, hor⟩ := h
  refine ⟨?_, ?_, ?_⟩
  · intro i
    rw [countWithId_map r i _ (addFeedbackUpd_id did (mkFeedback rid n rt tx now))]
    exact hu i
  · intro u'
    unfold countHeldBy
    rw [List.countP_map]
    have hcongr : List.countP (heldBy u' ∘ addFeedbackUpd did (mkFeedback rid n rt tx now)) r
        = List.countP (heldBy u') r := by
      apply List.countP_congr
      intro x _
      simp [Function.comp, heldBy_addFeedbackUpd]
    rw [hcongr]
    exact hex u'
  · intro d' hd' rid'
    obtain ⟨x, hx, rfl⟩ := List.mem_map.mp hd'
    unfold addFeedbackUpd
    split
    · rename_i hxid
      have hxd : x = d :=
        mem_eq_of_findDevice_of_unique r did d x (hu did) hf hx (by
          simpa using hxid)
      subst hxd
      simp only [List.countP_cons]
      by_cases hr : ((mkFeedback rid n rt tx now).user == rid') = true
      · have h0 : List.countP (fun fb => fb.user == rid') x.feedbacks = 0 := by
          rw [List.countP_eq_zero]
          intro fb hfb
          have hne := List.any_eq_false.mp hDup fb hfb
          have : rid' = rid := by
            have := eq_of_beq hr
            simpa [mkFeedback] using this.symm
          simpa [this] using hne
        simp [h0, hr]
      · simp only [Bool.not_eq_true] at hr
        simp only [hr]
        simpa using hor x hx rid'
    · exact hor x hx rid'

lemma removeFeedback_ok_inversion (r : List Device) (did rid : Nat)
    (fbs : List Feedback) (r' : List Device)
    (hok : removeFeedback r did rid = .ok (fbs, r')) :
    ∃ d, findDevice r did = some d ∧
      d.feedbacks.any (fun fb => fb.user == rid) = true ∧
      fbs = d.feedbacks.filter (fun fb => fb.user != rid) ∧
      r' = r.map (removeFeedbackUpd did rid) := by
  unfold removeFeedback at hok
  split at hok
  · cases hok
  · rename_i d hf
    split at hok
    · cases hok
    · rename_i hSome
      have hAny : (d.feedbacks.any fun fb => fb.user == rid) = true := by
        by_contra hc
        simp only [Bool.not_eq_true] at hc
        exact hSome (by simp [hc])
      simp only [Except.ok.injEq, Prod.mk.injEq] at hok
      exact ⟨d, hf, hAny, hok.1.symm, hok.2.symm⟩

lemma inv_removeFeedback_ok (r : List Device) (did rid : Nat) (fbs : List Feedback)
    (r' : List Device) (h : Inv r)
    (hok : removeFeedback r did rid = .ok (fbs, r')) : Inv r' := by
  obtain ⟨d, hf, hSome, hfbs, hr'⟩ := removeFeedback_ok_inversion r did rid fbs r' hok
  subst hr'
  obtain ⟨hu, hex, hor⟩ := h
  refine ⟨?_, ?_, ?_⟩
  · intro i
    rw [countWithId_map r i _ (removeFeedbackUpd_id did rid)]
    exact hu i
  · intro u'
    unfold countHeldBy
    rw [List.countP_map]
    have hcongr : List.countP (heldBy u' ∘ removeFeedbackUpd did rid) r
        = List.countP (heldBy u') r := by
      apply List.countP_congr
      intro x _
      simp [Function.comp, heldBy_removeFeedbackUpd]
    rw [hcongr]
    exact hex u'
  · intro d' hd' rid'
    obtain ⟨x, hx, rfl⟩ := List.mem_map.mp hd'
    unfold removeFeedbackUpd
    split
    · have hsubf : List.Sublist (x.feedbacks.filter (fun fb => fb.user != rid))
          x.feedbacks := List.filter_sublist _
      exact le_trans (hsubf.countP_le _) (hor x hx rid')
    · exact hor x hx rid'

lemma inv_nil : Inv [] := by
  refine ⟨fun i => ?_, fun u => ?_, fun d hd rid => ?_⟩
  · simp [countWithId]
  · simp [countHeldBy]
  · cases hd

lemma inv_applyOp (r : List Device) (op : Op) (h : Inv r) : Inv (applyOp r op) := by
  cases op with
  | register m o f u load =>
    simp only [applyOp]
    rcases hE : registerDevice load r m o f u with e | ⟨d, r'⟩
    · exact h
    · exact inv_register_ok load r m o f u d r' h hE
  | remove did uid =>
    simp only [applyOp]
    rcases hE : removeDevice r did uid with e | r'
    · exact h
    · exact inv_remove_ok r did uid r' h hE
  | checkOut did uid now =>
    simp only [applyOp]
    rcases hE : checkOut r did uid now with e | r'
    · exact h
    · exact inv_checkOut_ok r did uid now r' h hE
  | checkIn did uid now =>
    simp only [applyOp]
    rcases hE : checkIn r did uid now with e | r'
    · exact h
    · exact inv_checkIn_ok r did uid now r' h hE
  | addFeedback did rid n rt tx now =>
    simp only [applyOp]
    rcases hE : addFeedback r did rid n rt tx now with e | ⟨fbs, r'⟩
    · exact h
    · exact inv_addFeedback_ok r did rid n rt tx now fbs r' h hE
  | removeFeedback did rid =>
    simp only [applyOp]
    rcases hE : removeFeedback r did rid with e | ⟨fbs, r'⟩
    · exact h
    · exact inv_removeFeedback_ok r did rid fbs r' h hE

lemma inv_runOps (ops : List Op) (r : List Device) (h : Inv r) : Inv (runOps r ops) := by
  induction ops generalizing r with
  | nil => exact h
  | cons op t ih => exact ih (applyOp r op) (inv_applyOp r op h)

lemma length_applyOp (r : List Device) (op : Op) (h : r.length ≤ 10) :
    (applyOp r op).length ≤ 10 := by
  cases op with
  | register m o f u load =>
    simp only [applyOp]
    rcases hE : registerDevice load r m o f u with e | ⟨d, r'⟩
    · exact h
    · obtain ⟨hlen, _, hr'⟩ := register_ok_inversion load r m o f u d r' hE
      subst hr'
      simp
      omega
  | remove did uid =>
    simp only [applyOp]
    rcases hE : removeDevice r did uid with e | r'
    · exact h
    · rw [remove_ok_inversion r did uid r' hE]
      exact le_trans (List.length_eraseP_le r) h
  | checkOut did uid now =>
    simp only [applyOp]
    rcases hE : checkOut r did uid now with e | r'
    · exact h
    · obtain ⟨d, _, _, _, _, hr'⟩ := checkOut_ok_inversion r did uid now r' hE
      subst hr'
      simpa using h
  | checkIn did uid now =>
    simp only [applyOp]
    rcases hE : checkIn r did uid now with e | r'
    · exact h
    · obtain ⟨d, _, _, _, hr'⟩ := checkIn_ok_inversion r did uid now r' hE
      subst hr'
      simpa using h
  | addFeedback did rid n rt tx now =>
    simp only [applyOp]
    rcases hE : addFeedback r did rid n rt tx now with e | ⟨fbs, r'⟩
    · exact h
    · obtain ⟨d, _, _, _, hr'⟩ := addFeedback_ok_inversion r did rid n rt tx now fbs r' hE
      subst hr'
      simpa using h
  | removeFeedback did rid =>
    simp only [applyOp]
    rcases hE : removeFeedback r did rid with e | ⟨fbs, r'⟩
    · exact h
    · obtain ⟨d, _, _, _, hr'⟩ := removeFeedback_ok_inversion r did rid fbs r' hE
      subst hr'
      simpa using h

lemma length_runOps (ops : List Op) (r : List Device) (h : r.length ≤ 10) :
    (runOps r ops).length ≤ 10 := by
  induction ops generalizing r with
  | nil => exact h
  | cons op t ih => exact ih (applyOp r op) (length_applyOp r op h)

/-- Claim C1: `CheckOut(deviceId, userId, now)` performs its checks in exactly
this order: outside the 15-17 (inclusive) hour window it fails with
`OutsideAdmissionWindow` regardless of any device or user state; then an
unresolved id fails with `NotFound`; then, if any device in the registry is
checked out with `lastCheckedOutBy = userId`, it fails with
`UserAlreadyHolding`; then a checked-out target fails with
`AlreadyCheckedOut`; otherwise it sets `isCheckedOut := true`,
`lastCheckedOutBy := userId`, `lastCheckedOutDate := now` on the target and
returns the refreshed full device list. -/
theorem checkOut_check_order (r : List Device) (deviceId userId : Nat) (now : Time) :
    (¬(15 ≤ now.hour ∧ now.hour ≤ 17) →
      checkOut r deviceId userId now = .error .OutsideAdmissionWindow)
  ∧ (15 ≤ now.hour → now.hour ≤ 17 → findDevice r deviceId = none →
      checkOut r deviceId userId now = .error .NotFound)
  ∧ (∀ d, 15 ≤ now.hour → now.hour ≤ 17 → findDevice r deviceId = some d →
      r.any (heldBy userId) = true →
      checkOut r deviceId userId now = .error .UserAlreadyHolding)
  ∧ (∀ d, 15 ≤ now.hour → now.hour ≤ 17 → findDevice r deviceId = some d →
      r.any (heldBy userId) = false → d.isCheckedOut = true →
      checkOut r deviceId userId now = .error .AlreadyCheckedOut)
  ∧ (∀ d, 15 ≤ now.hour → now.hour ≤ 17 → findDevice r deviceId = some d →
      r.any (heldBy userId) = false → d.isCheckedOut = false →
      checkOut r deviceId userId now = .ok (r.map (checkOutUpd deviceId userId now.ms))
      ∧ (∀ d0 : Device, d0.id = deviceId →
          checkOutUpd deviceId userId now.ms d0 =
            { d0 with isCheckedOut := true, lastCheckedOutBy := some userId,
                      lastCheckedOutDate := some now.ms })
      ∧ (∀ d0 : Device, d0.id ≠ deviceId →
          checkOutUpd deviceId userId now.ms d0 = d0)) := by
  refine ⟨?_, ?_, ?_, ?_, ?_⟩
  · intro hw
    unfold checkOut
    rw [if_pos (by omega)]
  · intro h1 h2 hf
    have hw : ¬(now.hour < 15 ∨ 17 < now.hour) := by omega
    simp [checkOut, hw, hf]
  · intro d h1 h2 hf hAny
    have hw : ¬(now.hour < 15 ∨ 17 < now.hour) := by omega
    simp [checkOut, hw, hf, hAny]
  · intro d h1 h2 hf hAny hCo
    have hw : ¬(now.hour < 15 ∨ 17 < now.hour) := by omega
    simp [checkOut, hw, hf, hAny, hCo]
  · intro d h1 h2 hf hAny hCo
    have hw : ¬(now.hour < 15 ∨ 17 < now.hour) := by omega
    refine ⟨by simp [checkOut, hw, hf, hAny, hCo], ?_, ?_⟩
    · intro d0 hd0
      unfold checkOutUpd
      rw [if_pos (by simp [hd0])]
    · intro d0 hd0
      unfold checkOutUpd
      rw [if_neg (by simp [hd0])]

theorem checkOut_check_order_witness :
    checkOut [] 1 2 ⟨10, 0⟩ = .error .OutsideAdmissionWindow :=
  (checkOut_check_order [] 1 2 ⟨10, 0⟩).1 (by decide)

/-- Claim C2: `CheckIn(deviceId, userId, now)` fails with `NotFound` on an
absent device, else with `NotCheckedOut` when the device is not checked out,
else with `NotHolder` when `lastCheckedOutBy ≠ userId` (leaving the registry
unchanged), and otherwise sets `isCheckedOut := false` and
`lastCheckedInDate := now` while keeping `lastCheckedOutBy`, returning the
refreshed full device list — checks evaluated in exactly that order. -/
theorem checkIn_check_order (r : List Device) (deviceId userId : Nat) (now : Time) :
    (findDevice r deviceId = none → checkIn r deviceId userId now = .error .NotFound)
  ∧ (∀ d, findDevice r deviceId = some d → d.isCheckedOut = false →
      checkIn r deviceId userId now = .error .NotCheckedOut)
  ∧ (∀ d, findDevice r deviceId = some d → d.isCheckedOut = true →
      d.lastCheckedOutBy ≠ some userId →
      checkIn r deviceId userId now = .error .NotHolder
      ∧ applyOp r (Op.checkIn deviceId userId now) = r)
  ∧ (∀ d, findDevice r deviceId = some d → d.isCheckedOut = true →
      d.lastCheckedOutBy = some userId →
      checkIn r deviceId userId now = .ok (r.map (checkInUpd deviceId now.ms))
      ∧ (∀ d0 : Device, d0.id = deviceId →
          checkInUpd deviceId now.ms d0 =
            { d0 with isCheckedOut := false, lastCheckedInDate := some now.ms })
      ∧ (∀ d0 : Device, d0.id ≠ deviceId → checkInUpd deviceId now.ms d0 = d0)) := by
  refine ⟨?_, ?_, ?_, ?_⟩
  · intro hf
    simp [checkIn, hf]
  · intro d hf hCo
    simp [checkIn, hf, hCo]
  · intro d hf hCo hHold
    have herr : checkIn r deviceId userId now = .error .NotHolder := by
      simp [checkIn, hf, hCo, hHold]
    exact ⟨herr, by simp [applyOp, herr]⟩
  · intro d hf hCo hHold
    refine ⟨by simp [checkIn, hf, hCo, hHold], ?_, ?_⟩
    · intro d0 hd0
      unfold checkInUpd
      rw [if_pos (by simp [hd0])]
    · intro d0 hd0
      unfold checkInUpd
      rw [if_neg (by simp [hd0])]

theorem checkIn_check_order_witness :
    checkIn [] 1 2 ⟨16, 0⟩ = .error .NotFound :=
  (checkIn_check_order [] 1 2 ⟨16, 0⟩).1 rfl

/-- Claim C3: in every registry state reachable from the empty registry by
any sequence of register, remove, checkout, checkin, add-feedback and
remove-feedback requests, each user is the current holder
(`isCheckedOut = true` with `lastCheckedOutBy = userId`) of at most one
device. -/
theorem user_exclusivity_reachable (ops : List Op) : Exclusive (runOps [] ops) :=
  (inv_runOps ops [] inv_nil).2.1

/-- Claim C4: with valid (non-empty) fields, `Register` fails with
`CapacityExceeded` exactly when the device count is at or above 10; from the
empty registry 10 registrations succeed and the 11th fails with
`CapacityExceeded`; and no sequence of requests ever brings the registry
above 10 devices. -/
theorem register_capacity_spec :
    (∀ (load : Nat) (r : List Device) (m o f : String) (u : Nat),
        m ≠ "" → o ≠ "" → f ≠ "" →
        (registerDevice load r m o f u = .error .CapacityExceeded ↔ 10 ≤ r.length))
  ∧ ((List.range 10).all (fun k =>
        isOk (registerDevice 0 (runOps [] (List.replicate k regOp)) "m" "o" "f" 1)) = true)
  ∧ registerDevice 0 (runOps [] (List.replicate 10 regOp)) "m" "o" "f" 1
      = .error .CapacityExceeded
  ∧ (∀ ops : List Op, (runOps [] ops).length ≤ 10) := by
  refine ⟨?_, by decide, by rfl, fun ops => length_runOps ops [] (by simp)⟩
  intro load r m o f u hm ho hf
  unfold registerDevice
  rw [if_neg (by simp [hm, ho, hf])]
  by_cases hcap : 10 ≤ r.length
  · rw [if_pos hcap]
    exact iff_of_true rfl hcap
  · rw [if_neg hcap]
    exact iff_of_false (by simp) hcap

theorem register_capacity_spec_witness :
    registerDevice 0 (runOps [] (List.replicate 10 regOp)) "m" "o" "f" 1
      = .error .CapacityExceeded :=
  (register_capacity_spec.1 0 (runOps [] (List.replicate 10 regOp)) "m" "o" "f" 1
    (by decide) (by decide) (by decide)).mpr (by decide)

/-- Claim C5 (code bug): for an absent device id, both feedback handlers
dereference the null result of `findById` (`device.feedbacks.some` /
`device.feedbacks`), so the thrown TypeError is caught and surfaced as the
500 `ServerError` response, not as the `NotFound` of the claim. -/
theorem feedback_absent_device_500 (r : List Device) (deviceId reviewerId : Nat)
    (reviewer : String) (rating : Nat) (text : String) (now : Nat)
    (habs : findDevice r deviceId = none) :
    addFeedback r deviceId reviewerId reviewer rating text now = .error .ServerError
    ∧ removeFeedback r deviceId reviewerId = .error .ServerError
    ∧ DevError.ServerError ≠ DevError.NotFound := by
  refine ⟨?_, ?_, by decide⟩
  · simp [addFeedback, habs]
  · simp [removeFeedback, habs]

theorem feedback_absent_device_500_witness :
    addFeedback [] 1 2 "n" 5 "t" 0 = .error .ServerError
    ∧ removeFeedback [] 1 2 = .error .ServerError
    ∧ DevError.ServerError ≠ DevError.NotFound :=
  feedback_absent_device_500 [] 1 2 "n" 5 "t" 0 rfl

/-- Claim C6 (code bug on the timestamp): a successful `Register` stores the
given fields, `isCheckedOut = false` and a fresh id distinct from every
registered device — but its `registeredDate` is the constant captured when
the schema module was loaded (`default: Date.now()` is evaluated once at
schema construction), not the time of the call. -/
theorem register_fields_and_load_timestamp (load : Nat) (r : List Device)
    (m o f : String) (u : Nat) (d : Device) (r' : List Device)
    (hok : registerDevice load r m o f u = .ok (d, r')) :
    d.isCheckedOut = false ∧ d.model = m ∧ d.os = o ∧ d.manufacturer = f ∧
    d.registeredBy = u ∧ d.id = freshDeviceId r ∧ (∀ d0 ∈ r, d0.id ≠ d.id) ∧
    r' = r ++ [d] ∧ d.registeredDate = load := by
  obtain ⟨hlen, hd, hr'⟩ := register_ok_inversion load r m o f u d r' hok
  subst hd
  refine ⟨rfl, rfl, rfl, rfl, rfl, rfl, ?_, hr', rfl⟩
  intro d0 hd0
  exact Nat.ne_of_lt (id_lt_freshDeviceId r d0 hd0)

theorem register_fields_and_load_timestamp_witness :
    (newDevice 0 [] "m" "o" "f" 7).registeredDate = 0
    ∧ (newDevice 0 [] "m" "o" "f" 7).isCheckedOut = false :=
  ⟨(register_fields_and_load_timestamp 0 [] "m" "o" "f" 7
      (newDevice 0 [] "m" "o" "f" 7) [newDevice 0 [] "m" "o" "f" 7]
      (by rfl)).2.2.2.2.2.2.2.2,
   (register_fields_and_load_timestamp 0 [] "m" "o" "f" 7
      (newDevice 0 [] "m" "o" "f" 7) [newDevice 0 [] "m" "o" "f" 7]
      (by rfl)).1⟩

/-- Claim C7: every reachable registry state has at most one feedback entry
per reviewer on each device, and a second `AddFeedback` by a reviewer who
already has an entry fails with `DuplicateReview`, leaving the registry
unchanged. -/
theorem one_review_per_reviewer_spec :
    (∀ ops : List Op, OneReview (runOps [] ops))
  ∧ (∀ (r : List Device) (did rid : Nat) (n : String) (rt : Nat) (tx : String)
        (now : Nat) (d : Device),
        findDevice r did = some d →
        (d.feedbacks.any fun fb => fb.user == rid) = true →
        addFeedback r did rid n rt tx now = .error .DuplicateReview
        ∧ applyOp r (Op.addFeedback did rid n rt tx now) = r) := by
  refine ⟨fun ops => (inv_runOps ops [] inv_nil).2.2, ?_⟩
  intro r did rid n rt tx now d hf hdup
  have herr : addFeedback r did rid n rt tx now = .error .DuplicateReview := by
    simp [addFeedback, hf, hdup]
  exact ⟨herr, by simp [applyOp, herr]⟩

theorem one_review_per_reviewer_spec_witness :
    addFeedback [reviewedDevice] 1 2 "n" 5 "t" 0 = .error .DuplicateReview :=
  (one_review_per_reviewer_spec.2 [reviewedDevice] 1 2 "n" 5 "t" 0 reviewedDevice
    (by decide) (by decide)).1

/-- Claim C8: for a device present in the registry, a successful
`AddFeedback` prepends the new entry at the front of the ledger, and the
following `RemoveFeedback` for the same reviewer returns the ledger to
exactly its pre-add content, all other reviewers' entries and order
unchanged. -/
theorem feedback_round_trip (r : List Device) (did rid : Nat) (n : String)
    (rt : Nat) (tx : String) (now : Nat) (d : Device) (fbs1 : List Feedback)
    (r1 : List Device) (fbs2 : List Feedback) (r2 : List Device)
    (hf : findDevice r did = some d)
    (hadd : addFeedback r did rid n rt tx now = .ok (fbs1, r1))
    (hrem : removeFeedback r1 did rid = .ok (fbs2, r2)) :
    fbs1 = mkFeedback rid n rt tx now :: d.feedbacks ∧ fbs2 = d.feedbacks := by
  obtain ⟨d', hf', hDup, hfbs1, hr1⟩ :=
    addFeedback_ok_inversion r did rid n rt tx now fbs1 r1 hadd
  rw [hf] at hf'
  have hdd : d = d' := Option.some.inj hf'
  subst hdd
  subst hr1
  refine ⟨hfbs1, ?_⟩
  have hdid : (d.id == did) = true := by
    have hf2 := hf
    unfold findDevice at hf2
    have h3 := List.find?_some hf2
    exact h3
  have hfind1 : findDevice (r.map (addFeedbackUpd did (mkFeedback rid n rt tx now))) did
      = some { d with feedbacks := mkFeedback rid n rt tx now :: d.feedbacks } := by
    rw [findDevice_map r did _ (addFeedbackUpd_id did (mkFeedback rid n rt tx now)), hf]
    simp only [Option.map_some']
    unfold addFeedbackUpd
    rw [if_pos hdid]
  have hnone : ∀ fb ∈ d.feedbacks, (fb.user != rid) = true := by
    intro fb hfb
    have := List.any_eq_false.mp hDup fb hfb
    simpa using this
  have hfilter : d.feedbacks.filter (fun fb => fb.user != rid) = d.feedbacks :=
    List.filter_eq_self.mpr hnone
  have hrem2 : removeFeedback (r.map (addFeedbackUpd did (mkFeedback rid n rt tx now))) did rid
      = .ok (d.feedbacks,
             (r.map (addFeedbackUpd did (mkFeedback rid n rt tx now))).map
               (removeFeedbackUpd did rid)) := by
    unfold removeFeedback
    rw [hfind1]
    simp [mkFeedback, hfilter]
  have hp := Except.ok.inj (hrem2.symm.trans hrem)
  exact (congrArg Prod.fst hp).symm

theorem feedback_round_trip_witness :
    [mkFeedback 2 "n" 5 "t" 9] = mkFeedback 2 "n" 5 "t" 9 :: (sampleDevice 1).feedbacks
    ∧ ([] : List Feedback) = (sampleDevice 1).feedbacks :=
  feedback_round_trip [sampleDevice 1] 1 2 "n" 5 "t" 9 (sampleDevice 1)
    [mkFeedback 2 "n" 5 "t" 9]
    [{ sampleDevice 1 with feedbacks := [mkFeedback 2 "n" 5 "t" 9] }]
    [] [sampleDevice 1] (by decide) (by rfl) (by rfl)

/-- Claim C9: `Remove(deviceId, requesterId)` fails with `NotFound` when the
device is absent, with `Forbidden` when the requester is not the original
registerer, and otherwise deletes the record unconditionally — there is no
checked-out guard — leaving every other device in the registry unchanged. -/
theorem remove_device_spec (r : List Device) (deviceId requesterId : Nat) :
    (findDevice r deviceId = none →
      removeDevice r deviceId requesterId = .error .NotFound)
  ∧ (∀ d, findDevice r deviceId = some d → d.registeredBy ≠ requesterId →
      removeDevice r deviceId requesterId = .error .Forbidden)
  ∧ (∀ d, findDevice r deviceId = some d → d.registeredBy = requesterId →
      removeDevice r deviceId requesterId = .ok (r.eraseP (fun x => x.id == deviceId))
      ∧ (∀ d0 ∈ r, d0.id ≠ deviceId → d0 ∈ r.eraseP (fun x => x.id == deviceId))
      ∧ (∀ d0 ∈ r.eraseP (fun x => x.id == deviceId), d0 ∈ r)) := by
  refine ⟨?_, ?_, ?_⟩
  · intro hf
    simp [removeDevice, hf]
  · intro d hf hreg
    simp [removeDevice, hf, hreg]
  · intro d hf hreg
    refine ⟨by simp [removeDevice, hf, hreg], ?_, ?_⟩
    · intro d0 hd0 hne
      exact (List.mem_eraseP_of_neg (by simp [hne])).mpr hd0
    · intro d0 hd0
      exact (List.eraseP_sublist r).subset hd0

theorem remove_device_spec_witness :
    removeDevice [sampleDevice 1] 1 9 = .error .Forbidden :=
  (remove_device_spec [sampleDevice 1] 1 9).2.1 (sampleDevice 1) (by decide) (by decide)

/-- Claim C10: after a successful `RemoveFeedback(deviceId, reviewerId)`,
neither the returned ledger nor the stored device with that id contains any
entry by `reviewerId`: the `filter` drops every matching entry, not just the
first. -/
theorem removeFeedback_clears_reviewer (r : List Device) (deviceId reviewerId : Nat)
    (fbs : List Feedback) (r' : List Device)
    (hok : removeFeedback r deviceId reviewerId = .ok (fbs, r')) :
    (∀ fb ∈ fbs, fb.user ≠ reviewerId)
    ∧ (∀ d ∈ r', d.id = deviceId → ∀ fb ∈ d.feedbacks, fb.user ≠ reviewerId) := by
  obtain ⟨d, hf, hSome, hfbs, hr'⟩ :=
    removeFeedback_ok_inversion r deviceId reviewerId fbs r' hok
  subst hfbs
  subst hr'
  constructor
  · intro fb hfb
    have := List.of_mem_filter hfb
    simpa using this
  · intro d' hd' hid fb hfb
    obtain ⟨x, hx, rfl⟩ := List.mem_map.mp hd'
    by_cases hxid : (x.id == deviceId) = true
    · have hfeq : (removeFeedbackUpd deviceId reviewerId x).feedbacks
          = x.feedbacks.filter (fun fb => fb.user != reviewerId) := by
        unfold removeFeedbackUpd
        rw [if_pos hxid]
      rw [hfeq] at hfb
      have := List.of_mem_filter hfb
      simpa using this
    · have heq : removeFeedbackUpd deviceId reviewerId x = x := by
        unfold removeFeedbackUpd
        rw [if_neg hxid]
      rw [heq] at hid
      exact absurd (by simp [hid]) hxid

theorem removeFeedback_clears_reviewer_witness :
    (∀ fb ∈ ([] : List Feedback), fb.user ≠ 2)
    ∧ (∀ d ∈ [sampleDevice 1], d.id = 1 → ∀ fb ∈ d.feedbacks, fb.user ≠ 2) :=
  removeFeedback_clears_reviewer [reviewedDevice] 1 2 [] [sampleDevice 1] (by rfl)

end NodeServer
